import Mathlib

set_option autoImplicit false

/-!
Verification development for the clinical-trials dashboard repository
(`app.py` and `newapp.py`).  The Python functions are shallowly embedded:
strings are Lean `String`s, Python `None` becomes `Option`, pandas frames
become `List`s of records, and the HTTP layer is represented by the decoded
response data.  Definitions follow the source files; claim-side
(spec-worded) definitions are explicitly marked as such.
-/

/-! ## String primitives modelling Python operations -/

/-- Model of Python `str.lower()` (ASCII case folding, applied
character-by-character). -/
def lowerStr (s : String) : String :=
  String.mk (s.toList.map Char.toLower)

/-- Scan `l` from the left for the first occurrence of `sep`; return the part
strictly before the occurrence and the part strictly after it.  This is the
primitive used to model Python's substring operations (`in`, `str.split`). -/
def findFirst (sep : List Char) : List Char → Option (List Char × List Char)
  | [] => if sep.isEmpty then some ([], []) else none
  | c :: cs =>
    if sep.isPrefixOf (c :: cs) then some ([], (c :: cs).drop sep.length)
    else
      match findFirst sep cs with
      | none => none
      | some (p, q) => some (c :: p, q)

/-- Model of the Python expression `needle in hay` for strings. -/
def strContains (hay needle : String) : Bool :=
  (findFirst needle.toList hay.toList).isSome

/-- Model of Python `s.split(sep)` (left-to-right, non-overlapping), with a
fuel argument for structural termination; `fuel = s.length + 1` is always
sufficient for a non-empty separator. -/
def pySplitAux (sep : List Char) : Nat → List Char → List (List Char)
  | 0, l => [l]
  | fuel + 1, l =>
    match findFirst sep l with
    | none => [l]
    | some (p, q) => p :: pySplitAux sep fuel q

/-- Model of Python `s.split(sep)`. -/
def pySplit (s sep : String) : List String :=
  (pySplitAux sep.toList (s.toList.length + 1) s.toList).map String.mk

/-! ## Eligibility scorer (`newapp.py`, `text_contains` and
`evaluate_eligibility`) -/

/-- Embedding of `text_contains(text, keywords)` from `newapp.py`:
returns `False` on falsy (empty) text, otherwise lowercases the text and
checks whether any non-empty keyword, lowercased, occurs in it. -/
def text_contains (text : String) (keywords : List String) : Bool :=
  if text = "" then false
  else
    let t := lowerStr text
    keywords.any fun k => !(k == "") && strContains t (lowerStr k)

/-- The patient inputs of the eligibility matcher tab: age, free-text primary
diagnosis, and the three Yes/No flags (modelled as `Bool`). -/
structure PatientProfile where
  age : Nat
  diagnosis : String
  pregnant : Bool
  renalDisease : Bool
  cancerHistory : Bool
deriving DecidableEq

/-- Embedding of `evaluate_eligibility(row)` from `newapp.py`.  The row's
`Inclusion`/`Exclusion` fields arrive as `Option String` (`row[...] or ""`
replaces `None` by the empty string).  The source updates `score`
sequentially; since no rule's condition depends on `score`, the sequential
updates are written as one sum.  Returns `(score, label, joined reasons)`. -/
def evaluate_eligibility (inclusionText exclusionText : Option String)
    (p : PatientProfile) : Int × String × String :=
  let inclusion := inclusionText.getD ""
  let exclusion := exclusionText.getD ""
  let diagHit := text_contains inclusion [p.diagnosis]
  let ageHit := strContains inclusion (toString p.age)
  let pregHit := p.pregnant && text_contains exclusion ["pregnant"]
  let renalHit := p.renalDisease && text_contains exclusion ["renal", "kidney"]
  let cancerHit := p.cancerHistory && text_contains exclusion ["cancer", "malignancy"]
  let score : Int :=
    (if diagHit then 3 else 0) + (if ageHit then 1 else 0)
      - (if pregHit then 5 else 0) - (if renalHit then 4 else 0)
      - (if cancerHit then 4 else 0)
  let reasons :=
    (if pregHit then ["Pregnancy exclusion"] else []) ++
    (if renalHit then ["Renal exclusion"] else []) ++
    (if cancerHit then ["Cancer exclusion"] else [])
  let label :=
    if score ≥ 3 then "Likely Eligible"
    else if score ≥ 1 then "Possibly Eligible"
    else "Not Eligible"
  (score, label, String.intercalate ", " reasons)

example :
    evaluate_eligibility (some "Patients aged 45 with diabetes") none
      ⟨45, "diabetes", false, false, false⟩ = (4, "Likely Eligible", "") := by
  decide

/-! ## Eligibility text splitting (`newapp.py`, inside `fetch_trials`) -/

/-- The literal delimiter used by `fetch_trials` in `newapp.py`. -/
def marker : String := "Exclusion Criteria:"

/-- Embedding of the eligibility-text handling in `fetch_trials`
(`newapp.py`): a falsy (`None` or empty) combined text leaves both parts
`None`; when the marker occurs, `inclusion` is `split(marker)[0]` and
`exclusion` is `split(marker)[1]`; otherwise the whole text is inclusion. -/
def split_eligibility (eligibilityText : Option String) :
    Option String × Option String :=
  match eligibilityText with
  | none => (none, none)
  | some s =>
    if s = "" then (none, none)
    else if strContains s marker then
      (some ((pySplit s marker).getD 0 ""), some ((pySplit s marker).getD 1 ""))
    else (some s, none)

/-- Claim-worded splitter (from the words of C2, not from the source):
inclusionText is the text before the first occurrence of the marker,
exclusionText is ALL the text after that first occurrence; with the marker
absent the whole text is inclusionText and exclusionText is null. -/
def claimSplit (eligibilityText : Option String) :
    Option String × Option String :=
  match eligibilityText with
  | none => (none, none)
  | some s =>
    match findFirst marker.toList s.toList with
    | some (p, q) => (some (String.mk p), some (String.mk q))
    | none => (some s, none)

example :
    (split_eligibility (some "A Exclusion Criteria: B Exclusion Criteria: C")).2
      = some " B " := by decide

example :
    (claimSplit (some "A Exclusion Criteria: B Exclusion Criteria: C")).2
      = some " B Exclusion Criteria: C" := by decide

/-! ## Registry fetch (`fetch_trials` in both files) -/

/-- One raw study object of the registry payload, restricted to the nested
fields the two `fetch_trials` functions read; a missing nested field is
`none`.  `locations` holds the `country` field of each listed location. -/
structure Study where
  nctId : Option String
  briefTitle : Option String
  phases : Option (List String)
  sponsorName : Option String
  overallStatus : Option String
  enrollmentCount : Option Int
  eligibilityCriteria : Option String
  locations : Option (List (Option String))
deriving DecidableEq

/-- The decoded registry response: the HTTP status code together with the
`studies` list of the JSON body (`none` when the `studies` key is absent). -/
structure RegistryResponse where
  statusCode : Nat
  studies : Option (List Study)
deriving DecidableEq

/-- Model of Python `str(phases)` where `phases` is either `None` or a list
of strings (`None` prints as `"None"`; a list prints in brackets with
quoted, comma-separated elements). -/
def phaseStr : Option (List String) → String
  | none => "None"
  | some l =>
    let q := String.singleton (Char.ofNat 39)
    "[" ++ String.intercalate ", " (l.map fun s => q ++ s ++ q) ++ "]"

/-- One row of the `newapp.py` data frame. -/
structure TrialRecord where
  nctId : Option String
  title : Option String
  phase : String
  sponsor : Option String
  status : Option String
  enrollment : Option Int
  inclusion : Option String
  exclusion : Option String
deriving DecidableEq

/-- Embedding of the per-study record construction in `fetch_trials`
(`newapp.py`), including the inclusion/exclusion split. -/
def mkTrialRecord (s : Study) : TrialRecord :=
  let parts := split_eligibility s.eligibilityCriteria
  { nctId := s.nctId
    title := s.briefTitle
    phase := phaseStr s.phases
    sponsor := s.sponsorName
    status := s.overallStatus
    enrollment := s.enrollmentCount
    inclusion := parts.1
    exclusion := parts.2 }

/-- Embedding of `fetch_trials` from `newapp.py`: a non-200 status or a
payload without the `studies` key yields an empty frame; otherwise each
study is mapped to a record.  (`pd.to_numeric(..., errors="coerce")` is
absorbed into `enrollment : Option Int`.) -/
def fetch_trials (resp : RegistryResponse) : List TrialRecord :=
  if resp.statusCode ≠ 200 then []
  else
    match resp.studies with
    | none => []
    | some studies => studies.map mkTrialRecord

/-- One row of the `app.py` data frame. -/
structure DashRecord where
  nctId : Option String
  phase : String
  sponsor : Option String
  status : Option String
  enrollment : Option Int
  country : Option String
deriving DecidableEq

/-- Embedding of the per-study record construction in `fetch_trials`
(`app.py`): `country` is the first location's country, and stays `None`
when the locations list is absent or empty (Python truthiness). -/
def mkDashRecord (s : Study) : DashRecord :=
  { nctId := s.nctId
    phase := phaseStr s.phases
    sponsor := s.sponsorName
    status := s.overallStatus
    enrollment := s.enrollmentCount
    country :=
      match s.locations with
      | some (c :: _) => c
      | _ => none }

/-- Embedding of `fetch_trials` from `app.py` (the dashboard variant). -/
def fetch_trials_dash (resp : RegistryResponse) : List DashRecord :=
  if resp.statusCode ≠ 200 then []
  else
    match resp.studies with
    | none => []
    | some studies => studies.map mkDashRecord

/-! ## Filter engine (`app.py`, the sidebar filters applied to the frame) -/

/-- The sidebar filter inputs of `app.py`: `phase`/`status` use `"All"` as
the disabled value, `country`/`sponsor` are disabled when empty, and the
enrollment slider supplies inclusive bounds. -/
structure FilterSpec where
  phase : String
  country : String
  sponsor : String
  status : String
  enrollLo : Int
  enrollHi : Int
deriving DecidableEq

/-- Mask of `df["Phase"].str.contains(phase_filter, na=False)`, applied only
when the selection is not `"All"` (the `Phase` column is never null because
the fetch stores `str(phases)`).  The pattern comes from a fixed selectbox
of alphanumeric literals (`PHASE1`..`PHASE4`), on which the default
`regex=True` search coincides with plain substring containment. -/
def phasePred (spec : FilterSpec) (r : DashRecord) : Bool :=
  if spec.phase == "All" then true else strContains r.phase spec.phase

/-- Substring approximation of `df["Country"].str.contains(country_filter,
case=False, na=False)` (applied only when the input is non-empty; a null
country fails via `na=False`).  pandas defaults to `regex=True`, so this
approximation is accurate only for metacharacter-free patterns; the
faithful, pattern-compiler-parametric embedding of the mask is `maskStep` /
`applyFiltersRe` below.  This approximation is retained solely for the
null-enrollment exclusion theorem, whose conclusion is insensitive to the
country/sponsor mask semantics (every mask only removes records). -/
def countryPred (spec : FilterSpec) (r : DashRecord) : Bool :=
  if spec.country == "" then true
  else
    match r.country with
    | none => false
    | some c => strContains (lowerStr c) (lowerStr spec.country)

/-- Substring approximation of `df["Sponsor"].str.contains(sponsor_filter,
case=False, na=False)`, with the same caveat as `countryPred`: pandas
treats the free-text pattern as a regex; the faithful embedding is
`maskStep` / `applyFiltersRe` below. -/
def sponsorPred (spec : FilterSpec) (r : DashRecord) : Bool :=
  if spec.sponsor == "" then true
  else
    match r.sponsor with
    | none => false
    | some c => strContains (lowerStr c) (lowerStr spec.sponsor)

/-- Mask of `df["Status"] == status_filter`, applied only when the selection
is not `"All"`; a null status compares unequal. -/
def statusPred (spec : FilterSpec) (r : DashRecord) : Bool :=
  if spec.status == "All" then true
  else
    match r.status with
    | none => false
    | some st => st == spec.status

/-- Mask of `(df["Enrollment"] >= lo) & (df["Enrollment"] <= hi)`; a null
enrollment (NaN after coercion) fails both numeric comparisons. -/
def enrollPred (spec : FilterSpec) (r : DashRecord) : Bool :=
  match r.enrollment with
  | none => false
  | some e => spec.enrollLo ≤ e && e ≤ spec.enrollHi

/-- Sequential masking `df = df[mask]`, one mask after another. -/
def seqFilter (ps : List (DashRecord → Bool)) (rs : List DashRecord) :
    List DashRecord :=
  ps.foldl (fun acc p => acc.filter p) rs

/-- Embedding of the filter block of `app.py` (lines 136-149) with the
country/sponsor masks in their substring approximation (see `countryPred`);
retained solely for the null-enrollment exclusion theorem.  The faithful
engine is `applyFiltersRe`. -/
def applyFilters (spec : FilterSpec) (rs : List DashRecord) :
    List DashRecord :=
  ((((rs.filter (phasePred spec)).filter (countryPred spec)).filter
      (sponsorPred spec)).filter (statusPred spec)).filter (enrollPred spec)

/-- The external regex machinery behind `Series.str.contains(pat,
case=False, na=False)` (pandas default `regex=True`): compiling the
free-text pattern with `re.compile(pat, re.IGNORECASE)` either raises
`re.error` (modelled as `none`) or yields a compiled pattern whose
`re.search` test on one cell string is a Boolean function (`some m`).
The filter engine is parameterized by this collaborator, so theorems about
it hold for every behaviour of the regex library. -/
def PatternCompiler : Type := String → Option (String → Bool)

/-- One country/sponsor masking line of `app.py` (lines 139-140 and
142-143): skipped entirely when the free-text input is empty (Python
truthiness); otherwise the pattern is compiled — an invalid pattern raises
`re.error` out of the filter block (`Except.error`) — and the mask keeps
the rows whose cell matches, with null cells failing via `na=False`. -/
def maskStep (compile : PatternCompiler) (pat : String)
    (proj : DashRecord → Option String) (rs : List DashRecord) :
    Except Unit (List DashRecord) :=
  if pat == "" then Except.ok rs
  else
    match compile pat with
    | none => Except.error ()
    | some m =>
      Except.ok (rs.filter fun r =>
        match proj r with
        | none => false
        | some s => m s)

/-- Embedding of the filter block of `app.py` (lines 136-149) with the
regex delegation explicit: the phase mask (selectbox literal, substring
semantics exact), then the country and sponsor free-text masks through the
pattern compiler (either of which can raise), then the status equality and
enrollment range masks, in source order. -/
def applyFiltersRe (compile : PatternCompiler) (spec : FilterSpec)
    (rs : List DashRecord) : Except Unit (List DashRecord) :=
  match maskStep compile spec.country (fun r => r.country)
      (rs.filter (phasePred spec)) with
  | Except.error e => Except.error e
  | Except.ok rs2 =>
    match maskStep compile spec.sponsor (fun r => r.sponsor) rs2 with
    | Except.error e => Except.error e
    | Except.ok rs3 =>
      Except.ok ((rs3.filter (statusPred spec)).filter (enrollPred spec))

/-- The country mask as a per-record predicate, given the compiled matcher
`m` for the active pattern (constant true when the filter is disabled). -/
def countryPredC (spec : FilterSpec) (m : String → Bool) (r : DashRecord) :
    Bool :=
  if spec.country == "" then true
  else
    match r.country with
    | none => false
    | some c => m c

/-- The sponsor mask as a per-record predicate, given the compiled matcher
`m` for the active pattern (constant true when the filter is disabled). -/
def sponsorPredC (spec : FilterSpec) (m : String → Bool) (r : DashRecord) :
    Bool :=
  if spec.sponsor == "" then true
  else
    match r.sponsor with
    | none => false
    | some c => m c

/-- The five masks in the order `app.py` applies them, with the compiled
matchers `mc`/`ms` for the country and sponsor patterns. -/
def predsC (spec : FilterSpec) (mc ms : String → Bool) :
    List (DashRecord → Bool) :=
  [phasePred spec, countryPredC spec mc, sponsorPredC spec ms,
   statusPred spec, enrollPred spec]

/-! ## Top-level search flows (empty-term handling) -/

/-- Outcome of the `newapp.py` sidebar search: either the
"Enter a disease in sidebar to begin" prompt followed by `st.stop()`
(no fetch), or the fetched frame. -/
inductive SearchOutcome where
  | prompt
  | results (df : List TrialRecord)
deriving DecidableEq

/-- Embedding of the `newapp.py` top level (lines 81-87): an empty disease
string is falsy, so the page prompts and stops before `fetch_trials` runs. -/
def newapp_main (disease : String) (resp : RegistryResponse) : SearchOutcome :=
  if disease = "" then SearchOutcome.prompt
  else SearchOutcome.results (fetch_trials resp)

set_option linter.unusedVariables false in
/-- Embedding of the `app.py` Generate Dashboard button (lines 126-129):
when clicked, `fetch_trials(disease)` runs unconditionally — there is no
guard on an empty disease string.  `some df` records that the fetch was
performed; `none` means no network access happened. -/
def app_main (clicked : Bool) (disease : String) (resp : RegistryResponse) :
    Option (List DashRecord) :=
  if clicked then some (fetch_trials_dash resp) else none

/-! ## Helper lemmas about the string primitives -/

theorem string_toList_eq_nil {s : String} : s.toList = [] ↔ s = "" := by
  cases s with
  | mk data =>
    constructor
    · intro h
      have hd : data = [] := h
      subst hd
      rfl
    · intro h
      exact congrArg String.toList h

theorem lowerStr_eq_empty {s : String} : lowerStr s = "" ↔ s = "" := by
  constructor
  · intro h
    have hl : (s.toList.map Char.toLower) = [] := by
      have := congrArg String.toList h
      exact this
    have := List.map_eq_nil_iff.mp hl
    exact string_toList_eq_nil.mp this
  · intro h
    rw [h]
    rfl

theorem findFirst_decomp (sep : List Char) :
    ∀ l p q, findFirst sep l = some (p, q) → l = p ++ sep ++ q := by
  intro l
  induction l with
  | nil =>
    intro p q h
    rw [findFirst] at h
    by_cases hsep : sep.isEmpty
    · rw [if_pos hsep] at h
      have hp : p = [] ∧ q = [] := by
        constructor <;> · injection h with h2; cases h2; rfl
      have hs : sep = [] := by
        cases sep
        · rfl
        · exact absurd hsep (by simp)
      rw [hp.1, hp.2, hs]
      rfl
    · rw [if_neg hsep] at h
      exact absurd h (by simp)
  | cons c cs ih =>
    intro p q h
    rw [findFirst] at h
    by_cases hpre : sep.isPrefixOf (c :: cs)
    · rw [if_pos hpre] at h
      have hsp : sep <+: c :: cs := by simpa using hpre
      obtain ⟨t, ht⟩ := hsp
      have hp : p = [] := by injection h with h2; cases h2; rfl
      have hq : q = (c :: cs).drop sep.length := by
        injection h with h2; cases h2; rfl
      rw [hp, hq, ← ht, List.nil_append, List.drop_left]
    · rw [if_neg hpre] at h
      cases hf : findFirst sep cs with
      | none => rw [hf] at h; exact absurd h (by simp)
      | some pq =>
        rw [hf] at h
        have hp : p = c :: pq.1 := by injection h with h2; cases h2; rfl
        have hq : q = pq.2 := by injection h with h2; cases h2; rfl
        have := ih pq.1 pq.2 (by rw [hf])
        rw [hp, hq, List.cons_append, List.cons_append, ← this]

theorem findFirst_none (sep : List Char) :
    ∀ l, findFirst sep l = none → ∀ p q, l ≠ p ++ sep ++ q := by
  intro l
  induction l with
  | nil =>
    intro h p q habs
    have hsep : ¬sep.isEmpty := by
      intro hs
      rw [findFirst, if_pos hs] at h
      exact absurd h (by simp)
    have := List.append_eq_nil.mp habs.symm
    have h2 := List.append_eq_nil.mp this.1
    cases sep
    · exact hsep rfl
    · exact absurd h2.2 (by simp)
  | cons c cs ih =>
    intro h p q habs
    rw [findFirst] at h
    by_cases hpre : sep.isPrefixOf (c :: cs)
    · rw [if_pos hpre] at h
      exact absurd h (by simp)
    · rw [if_neg hpre] at h
      cases p with
      | nil =>
        apply hpre
        have : sep <+: c :: cs := ⟨q, by simpa using habs.symm⟩
        simpa using this
      | cons a p2 =>
        have hc : cs = p2 ++ sep ++ q := by
          injection habs with h1 h2
        cases hf : findFirst sep cs with
        | none => exact ih hf p2 q hc
        | some pq => rw [hf] at h; exact absurd h (by simp)

theorem findFirst_min (sep : List Char) :
    ∀ l p q, findFirst sep l = some (p, q) →
      ∀ p2 q2, l = p2 ++ sep ++ q2 → p.length ≤ p2.length := by
  intro l
  induction l with
  | nil =>
    intro p q h p2 q2 h2
    rw [findFirst] at h
    by_cases hsep : sep.isEmpty
    · rw [if_pos hsep] at h
      have hp : p = [] := by injection h with h3; cases h3; rfl
      rw [hp]
      exact Nat.zero_le _
    · rw [if_neg hsep] at h
      exact absurd h (by simp)
  | cons c cs ih =>
    intro p q h p2 q2 h2
    rw [findFirst] at h
    by_cases hpre : sep.isPrefixOf (c :: cs)
    · rw [if_pos hpre] at h
      have hp : p = [] := by injection h with h3; cases h3; rfl
      rw [hp]
      exact Nat.zero_le _
    · rw [if_neg hpre] at h
      cases p2 with
      | nil =>
        exfalso
        apply hpre
        have : sep <+: c :: cs := ⟨q2, by simpa using h2.symm⟩
        simpa using this
      | cons a p3 =>
        have hc : cs = p3 ++ sep ++ q2 := by
          injection h2 with h1 h3
        cases hf : findFirst sep cs with
        | none => rw [hf] at h; exact absurd h (by simp)
        | some pq =>
          rw [hf] at h
          have hp : p = c :: pq.1 := by injection h with h3; cases h3; rfl
          rw [hp]
          have := ih pq.1 pq.2 (by rw [hf]) p3 q2 hc
          simpa using this

theorem strContains_iff_parts {hay needle : String} :
    strContains hay needle = true ↔
      ∃ p q, hay.toList = p ++ needle.toList ++ q := by
  unfold strContains
  constructor
  · intro h
    cases hf : findFirst needle.toList hay.toList with
    | none => rw [hf] at h; exact absurd h (by simp)
    | some pq =>
      exact ⟨pq.1, pq.2, findFirst_decomp _ _ pq.1 pq.2 (by rw [hf])⟩
  · rintro ⟨p, q, hpq⟩
    cases hf : findFirst needle.toList hay.toList with
    | none => exact absurd hpq (findFirst_none _ _ hf p q)
    | some pq => simp

theorem strContains_empty_hay {needle : String} (h : needle ≠ "") :
    strContains "" needle = false := by
  cases hv : strContains "" needle
  · rfl
  · exfalso
    obtain ⟨p, q, hpq⟩ := strContains_iff_parts.mp hv
    have := List.append_eq_nil.mp hpq.symm
    have h2 := List.append_eq_nil.mp this.1
    exact h (string_toList_eq_nil.mp h2.2)

theorem findFirst_shrink {sep l p q : List Char} (hsep : sep ≠ [])
    (h : findFirst sep l = some (p, q)) : q.length < l.length := by
  have hd := findFirst_decomp sep l p q h
  have hlen := congrArg List.length hd
  simp [List.length_append] at hlen
  have hs : 1 ≤ sep.length := by
    cases sep
    · exact absurd rfl hsep
    · simp
  omega

theorem toDigitsCore_length_le (b : Nat) :
    ∀ fuel n ds, ds.length ≤ (Nat.toDigitsCore b fuel n ds).length := by
  intro fuel
  induction fuel with
  | zero => intro n ds; rw [Nat.toDigitsCore]
  | succ fl ih =>
    intro n ds
    rw [Nat.toDigitsCore]
    by_cases hz : n / b = 0
    · simp only [hz, if_pos]
      simp
    · simp only [hz, if_neg, ite_false]
      have := ih (n / b) (Nat.digitChar (n % b) :: ds)
      calc ds.length ≤ (Nat.digitChar (n % b) :: ds).length := by simp
        _ ≤ _ := this

theorem toString_nat_ne_empty (n : Nat) : toString n ≠ "" := by
  intro h
  have heq : toString n = String.mk (Nat.toDigits 10 n) := rfl
  rw [heq] at h
  have hnil : Nat.toDigits 10 n = [] := by
    have := congrArg String.toList h
    exact this
  have h1 : 1 ≤ (Nat.toDigits 10 n).length := by
    rw [Nat.toDigits, Nat.toDigitsCore]
    by_cases hz : n / 10 = 0
    · simp [hz]
    · simp only [hz, if_neg, ite_false]
      have := toDigitsCore_length_le 10 n (n / 10) [Nat.digitChar (n % 10)]
      simpa using this
  rw [hnil] at h1
  exact absurd h1 (by simp)

theorem strContains_empty_age (n : Nat) :
    strContains "" (toString n) = false :=
  strContains_empty_hay (toString_nat_ne_empty n)

theorem text_contains_eq_any (t : String) (ks : List String) :
    text_contains t ks =
      ks.any fun k => !(k == "") && strContains (lowerStr t) (lowerStr k) := by
  unfold text_contains
  by_cases ht : t = ""
  · rw [if_pos ht, ht]
    induction ks with
    | nil => rfl
    | cons k ks ih =>
      rw [List.any_cons, ← ih]
      by_cases hk : k = ""
      · rw [hk]
        rfl
      · have h1 : (k == "") = false := by simp [hk]
        have h2 : strContains (lowerStr "") (lowerStr k) = false := by
          have : lowerStr k ≠ "" := fun hc => hk (lowerStr_eq_empty.mp hc)
          exact strContains_empty_hay this
        rw [h1, h2]
        rfl
  · rw [if_neg ht]

theorem text_contains_single (t k : String) :
    text_contains t [k] =
      (!(k == "") && strContains (lowerStr t) (lowerStr k)) := by
  rw [text_contains_eq_any]
  simp [List.any_cons]

theorem text_contains_single_true {t k : String}
    (h : text_contains t [k] = true) :
    k ≠ "" ∧ strContains (lowerStr t) (lowerStr k) = true := by
  rw [text_contains_single, Bool.and_eq_true] at h
  obtain ⟨h1, h2⟩ := h
  refine ⟨?_, h2⟩
  intro hk
  rw [hk] at h1
  exact absurd h1 (by decide)

theorem pySplitAux_pos (sep : List Char) (fuel : Nat) (l : List Char)
    (h : 0 < fuel) :
    pySplitAux sep fuel l =
      match findFirst sep l with
      | none => [l]
      | some (p, q) => p :: pySplitAux sep (fuel - 1) q := by
  cases fuel with
  | zero => exact absurd h (by simp)
  | succ n => rfl

/-! ## C2 — eligibility text splitting -/

/-- C2 counterexample: on a text with two occurrences of the marker the code
stores only the text between the first and second occurrence as
`exclusionText` (`split(...)[1]`), not all the text after the first
occurrence as the claim states, so the code differs from the claim-worded
`claimSplit` at this input. -/
theorem split_marker_counterexample :
    (split_eligibility
        (some "A Exclusion Criteria: B Exclusion Criteria: C")).2 = some " B "
    ∧ (claimSplit
        (some "A Exclusion Criteria: B Exclusion Criteria: C")).2 =
          some " B Exclusion Criteria: C"
    ∧ claimSplit (some "A Exclusion Criteria: B Exclusion Criteria: C") ≠
        split_eligibility (some "A Exclusion Criteria: B Exclusion Criteria: C") := by
  refine ⟨by decide, by decide, by decide⟩

/-- C2 (amended): for a non-empty combined text, if the marker does not
occur the whole text becomes `inclusionText` with `exclusionText` null;
if it occurs, `inclusionText` is the text strictly before the FIRST
occurrence (`findFirst` returns a decomposition of minimal pre-text length)
and `exclusionText` is the text after that first occurrence truncated at
the next occurrence of the marker, when one exists. -/
theorem split_first_occurrence (s : String) (hs : s ≠ "") :
    ((¬∃ p q, s.toList = p ++ marker.toList ++ q) →
        split_eligibility (some s) = (some s, none))
    ∧ (∀ p q, findFirst marker.toList s.toList = some (p, q) →
        s.toList = p ++ marker.toList ++ q
        ∧ (∀ p2 q2, s.toList = p2 ++ marker.toList ++ q2 →
            p.length ≤ p2.length)
        ∧ split_eligibility (some s) =
            (some (String.mk p),
             some (String.mk
               (match findFirst marker.toList q with
                | none => q
                | some pq => pq.1)))) := by
  constructor
  · intro hno
    have hc : strContains s marker = false := by
      cases hv : strContains s marker
      · rfl
      · exact absurd (strContains_iff_parts.mp hv) hno
    show (if s = "" then (none, none)
      else if strContains s marker then
        (some ((pySplit s marker).getD 0 ""), some ((pySplit s marker).getD 1 ""))
      else (some s, none)) = (some s, none)
    rw [if_neg hs, hc]
    rfl
  · intro p q hf
    have hdec := findFirst_decomp marker.toList s.toList p q hf
    have hmin := findFirst_min marker.toList s.toList p q hf
    refine ⟨hdec, hmin, ?_⟩
    have hmark : marker.toList ≠ [] := by decide
    have hc : strContains s marker = true := by
      unfold strContains
      rw [hf]
      rfl
    have hq : q.length < s.toList.length := findFirst_shrink hmark hf
    show (if s = "" then (none, none)
      else if strContains s marker then
        (some ((pySplit s marker).getD 0 ""), some ((pySplit s marker).getD 1 ""))
      else (some s, none)) = _
    rw [if_neg hs, hc]
    simp only [if_pos]
    have hsplit : pySplit s marker =
        (pySplitAux marker.toList (s.toList.length + 1) s.toList).map
          String.mk := rfl
    rw [hsplit, pySplitAux_pos _ _ _ (by omega), hf]
    dsimp only
    rw [Nat.add_sub_cancel, pySplitAux_pos marker.toList s.toList.length q
      (by omega)]
    cases hf2 : findFirst marker.toList q with
    | none => rfl
    | some pq => rfl

/-- C2 witness: the amended characterization applied at a concrete text with
two marker occurrences. -/
theorem split_first_occurrence_witness :
    (split_eligibility
        (some "A Exclusion Criteria: B Exclusion Criteria: C")).2 =
      some " B " := by
  have h := (split_first_occurrence
      "A Exclusion Criteria: B Exclusion Criteria: C" (by decide)).2
      "A ".toList " B Exclusion Criteria: C".toList (by decide)
  rw [h.2.2]
  decide

/-! ## C1 — the fixed-weight scoring rule -/

/-- Claim-worded scorer (from the words of C1 and spec §4.4, not from the
source): start at 0; add 3 if the diagnosis is non-empty and appears
case-insensitively in the inclusion text; add 1 if the age's decimal string
appears verbatim in the inclusion text; subtract 5 for the pregnancy rule
and 4 each for the renal and cancer rules. -/
def spec_rule_score (inclusionText exclusionText : Option String)
    (p : PatientProfile) : Int :=
  let inclusion := inclusionText.getD ""
  let exclusion := exclusionText.getD ""
  (if !(p.diagnosis == "") &&
      strContains (lowerStr inclusion) (lowerStr p.diagnosis) then 3 else 0)
    + (if strContains inclusion (toString p.age) then 1 else 0)
    - (if p.pregnant && strContains (lowerStr exclusion) "pregnant"
        then 5 else 0)
    - (if p.renalDisease && (strContains (lowerStr exclusion) "renal" ||
        strContains (lowerStr exclusion) "kidney") then 4 else 0)
    - (if p.cancerHistory && (strContains (lowerStr exclusion) "cancer" ||
        strContains (lowerStr exclusion) "malignancy") then 4 else 0)

/-- Claim-worded classification: `score >= 3` is "Likely Eligible",
`1 <= score < 3` is "Possibly Eligible", otherwise "Not Eligible". -/
def spec_rule_label (score : Int) : String :=
  if score ≥ 3 then "Likely Eligible"
  else if score ≥ 1 then "Possibly Eligible"
  else "Not Eligible"

theorem text_contains_pregnant (t : String) :
    text_contains t ["pregnant"] = strContains (lowerStr t) "pregnant" := by
  rw [text_contains_eq_any]
  simp only [List.any_cons, List.any_nil, Bool.or_false]
  rw [show (("pregnant" : String) == "") = false from rfl,
    show lowerStr "pregnant" = "pregnant" from rfl]
  rfl

theorem text_contains_renal (t : String) :
    text_contains t ["renal", "kidney"] =
      (strContains (lowerStr t) "renal" ||
        strContains (lowerStr t) "kidney") := by
  rw [text_contains_eq_any]
  simp only [List.any_cons, List.any_nil, Bool.or_false]
  rw [show (("renal" : String) == "") = false from rfl,
    show lowerStr "renal" = "renal" from rfl,
    show (("kidney" : String) == "") = false from rfl,
    show lowerStr "kidney" = "kidney" from rfl]
  rfl

theorem text_contains_cancer (t : String) :
    text_contains t ["cancer", "malignancy"] =
      (strContains (lowerStr t) "cancer" ||
        strContains (lowerStr t) "malignancy") := by
  rw [text_contains_eq_any]
  simp only [List.any_cons, List.any_nil, Bool.or_false]
  rw [show (("cancer" : String) == "") = false from rfl,
    show lowerStr "cancer" = "cancer" from rfl,
    show (("malignancy" : String) == "") = false from rfl,
    show lowerStr "malignancy" = "malignancy" from rfl]
  rfl

/-- C1: the scorer computes exactly the claim's fixed-weight rule sum and
classification, and the stated scenario evaluates to score 4 with label
"Likely Eligible". -/
theorem scorer_matches_fixed_weight_rules :
    (∀ (it et : Option String) (p : PatientProfile),
      (evaluate_eligibility it et p).1 = spec_rule_score it et p
      ∧ (evaluate_eligibility it et p).2.1 =
          spec_rule_label (spec_rule_score it et p))
    ∧ evaluate_eligibility (some "Patients aged 45 with diabetes") none
        ⟨45, "diabetes", false, false, false⟩ = (4, "Likely Eligible", "") := by
  constructor
  · intro it et p
    simp only [evaluate_eligibility, spec_rule_score, spec_rule_label,
      text_contains_single, text_contains_pregnant, text_contains_renal,
      text_contains_cancer]
    exact ⟨rfl, rfl⟩
  · decide

/-! ## C9 and C10 — scorer invariants -/

theorem label_eq_likely_iff (s : Int) :
    ((if s ≥ 3 then "Likely Eligible"
      else if s ≥ 1 then "Possibly Eligible"
      else "Not Eligible") = "Likely Eligible") ↔ s ≥ 3 := by
  split_ifs with h1 h2
  · simpa using h1
  · constructor
    · intro h
      exact absurd h (by decide)
    · intro h
      exact absurd h h1
  · constructor
    · intro h
      exact absurd h (by decide)
    · intro h
      exact absurd h h1

/-- C9: the label "Likely Eligible" is reachable only with a non-empty
diagnosis matching the inclusion text case-insensitively, and the score is
always within [-13, 4]. -/
theorem likely_eligible_requires_diagnosis (it et : Option String)
    (p : PatientProfile) :
    (-13 ≤ (evaluate_eligibility it et p).1
      ∧ (evaluate_eligibility it et p).1 ≤ 4)
    ∧ ((evaluate_eligibility it et p).2.1 = "Likely Eligible" →
        p.diagnosis ≠ "" ∧
        strContains (lowerStr (it.getD "")) (lowerStr p.diagnosis) = true) := by
  simp only [evaluate_eligibility]
  refine ⟨⟨?_, ?_⟩, fun h => ?_⟩
  · split_ifs <;> norm_num
  · split_ifs <;> norm_num
  · rw [label_eq_likely_iff] at h
    split_ifs at h with h1 h2 h3 h4 h5 <;>
      first
        | exact text_contains_single_true h1
        | norm_num at h

/-- C9 witness: the bound and the diagnosis consequence at the concrete
scenario input, with the "Likely Eligible" hypothesis discharged by
evaluation. -/
theorem likely_eligible_requires_diagnosis_witness :
    ("diabetes" : String) ≠ "" ∧
      strContains (lowerStr "Patients aged 45 with diabetes")
        (lowerStr "diabetes") = true :=
  (likely_eligible_requires_diagnosis
      (some "Patients aged 45 with diabetes") none
      ⟨45, "diabetes", false, false, false⟩).2 (by decide)

/-- C10: the reasons output is always the comma-separated join of a
subsequence of the fixed sequence
["Pregnancy exclusion", "Renal exclusion", "Cancer exclusion"], in that
order. -/
theorem reasons_ordered_subsequence (it et : Option String)
    (p : PatientProfile) :
    ∃ l : List String,
      l.Sublist ["Pregnancy exclusion", "Renal exclusion", "Cancer exclusion"]
      ∧ (evaluate_eligibility it et p).2.2 = String.intercalate ", " l := by
  simp only [evaluate_eligibility]
  cases h1 : p.pregnant && text_contains (et.getD "") ["pregnant"] <;>
  cases h2 : p.renalDisease && text_contains (et.getD "") ["renal", "kidney"] <;>
  cases h3 : p.cancerHistory &&
      text_contains (et.getD "") ["cancer", "malignancy"] <;>
  simp only [h1, h2, h3, if_true, if_false, Bool.false_eq_true,
    List.nil_append, List.append_nil, List.cons_append] <;>
  first
    | exact ⟨[], by decide, rfl⟩
    | exact ⟨["Pregnancy exclusion"], by decide, rfl⟩
    | exact ⟨["Renal exclusion"], by decide, rfl⟩
    | exact ⟨["Cancer exclusion"], by decide, rfl⟩
    | exact ⟨["Pregnancy exclusion", "Renal exclusion"], by decide, rfl⟩
    | exact ⟨["Pregnancy exclusion", "Cancer exclusion"], by decide, rfl⟩
    | exact ⟨["Renal exclusion", "Cancer exclusion"], by decide, rfl⟩
    | exact ⟨["Pregnancy exclusion", "Renal exclusion", "Cancer exclusion"],
        by decide, rfl⟩

/-! ## C4 — null-safety of the scorer -/

/-- C4: with both criteria texts null, an empty diagnosis and all flags
false, every age yields score 0, label "Not Eligible" and an empty joined
reasons string; and keyword containment on empty text is always false. -/
theorem scorer_null_safe :
    (∀ age : Nat,
      evaluate_eligibility none none ⟨age, "", false, false, false⟩ =
        (0, "Not Eligible", ""))
    ∧ ∀ ks : List String, text_contains "" ks = false := by
  constructor
  · intro age
    have ha : strContains "" (toString age) = false := strContains_empty_age age
    simp only [evaluate_eligibility, Option.getD_none, ha,
      show text_contains "" [("" : String)] = false from rfl,
      Bool.false_and, Bool.and_false, if_false]
    norm_num
    rfl
  · intro ks
    rfl

/-! ## C5 and C6 — the filter engine -/

theorem seqFilter_eq_filter_all :
    ∀ (ps : List (DashRecord → Bool)) (rs : List DashRecord),
      seqFilter ps rs = rs.filter fun r => ps.all fun p => p r := by
  intro ps
  induction ps with
  | nil =>
    intro rs
    simp [seqFilter, List.all_nil]
  | cons p ps ih =>
    intro rs
    have h1 : seqFilter (p :: ps) rs = seqFilter ps (rs.filter p) := rfl
    rw [h1, ih, List.filter_filter]
    apply List.filter_congr
    intro r _
    rw [List.all_cons, Bool.and_comm]

theorem all_of_perm {ps qs : List (DashRecord → Bool)} (h : ps.Perm qs)
    (r : DashRecord) : (ps.all fun p => p r) = qs.all fun p => p r := by
  induction h with
  | nil => rfl
  | cons a h ih => simp only [List.all_cons, ih]
  | swap a b l =>
    simp only [List.all_cons]
    cases a r <;> cases b r <;> simp
  | trans h1 h2 ih1 ih2 => rw [ih1, ih2]

theorem maskStep_eq (compile : PatternCompiler) (pat : String)
    (proj : DashRecord → Option String) (m : String → Bool)
    (rs : List DashRecord) (h : pat = "" ∨ compile pat = some m) :
    maskStep compile pat proj rs =
      Except.ok (rs.filter fun r =>
        if pat == "" then true
        else
          match proj r with
          | none => false
          | some s => m s) := by
  by_cases hp : pat = ""
  · have hb : (pat == "") = true := beq_iff_eq.mpr hp
    rw [maskStep, if_pos hb]
    congr 1
    symm
    exact List.filter_eq_self.mpr fun a _ => by rw [if_pos hb]
  · have hm : compile pat = some m := h.resolve_left hp
    have hb : (pat == "") = false := beq_eq_false_iff_ne.mpr hp
    rw [maskStep, if_neg (by simp [hb]), hm]
    dsimp only
    congr 1
    apply List.filter_congr
    intro r _
    rw [if_neg (by simp [hb])]

/-- C5 counterexample: the original claim promises a returned subset for
every filter specification, but the country/sponsor patterns are free text
fed to `re.compile`; `re0` is a concrete instance of the pattern-compiler
collaborator that agrees with Python's `re` on the patterns in this file
(the pattern "(" does not compile — `re.error`, unbalanced parenthesis —
while plain alphanumeric literals compile to case-insensitive substring
search, which is their regex meaning), and under it the filter block with
country input "(" raises instead of returning any subset. -/
def re0 : PatternCompiler := fun pat =>
  if pat = "(" then none
  else some fun s => strContains (lowerStr s) (lowerStr pat)

/-- A concrete record list used by the C5 statements. -/
def rs0 : List DashRecord :=
  [⟨some "NCT1", "None", some "Acme", some "RECRUITING", some 100,
      some "United States"⟩,
   ⟨some "NCT2", "None", none, none, none, none⟩]

/-- C5 counterexample theorem: with country pattern "(" the filter engine
raises (`Except.error`) — no subset of the input records is returned, so
the claim fails at this concrete filter specification. -/
theorem filter_crash_counterexample :
    applyFiltersRe re0 ⟨"All", "(", "", "All", 0, 5000⟩ rs0 =
      Except.error () := by
  rfl

/-- C5 (amended): for every behaviour of the pattern compiler, every
filter specification whose active country/sponsor patterns compile (to
matchers `mc`, `ms`), and every record collection, the engine returns,
without error, exactly the records satisfying the conjunction of the five
masks; sequential masking under any permutation of the five masks yields
that same subset, and it is an order-preserving sublist of the (unmodified)
input. -/
theorem filters_pure_conjunction (compile : PatternCompiler)
    (spec : FilterSpec) (rs : List DashRecord) (mc ms : String → Bool)
    (ps : List (DashRecord → Bool))
    (hc : spec.country = "" ∨ compile spec.country = some mc)
    (hsp : spec.sponsor = "" ∨ compile spec.sponsor = some ms)
    (hperm : ps.Perm (predsC spec mc ms)) :
    applyFiltersRe compile spec rs =
        Except.ok (rs.filter fun r => (predsC spec mc ms).all fun p => p r)
    ∧ seqFilter ps rs =
        rs.filter (fun r => (predsC spec mc ms).all fun p => p r)
    ∧ (rs.filter fun r => (predsC spec mc ms).all fun p => p r).Sublist
        rs := by
  have key : ∀ qs : List (DashRecord → Bool), qs.Perm (predsC spec mc ms) →
      seqFilter qs rs =
        rs.filter fun r => (predsC spec mc ms).all fun p => p r := by
    intro qs hq
    rw [seqFilter_eq_filter_all]
    exact List.filter_congr fun r _ => all_of_perm hq r
  have hmain : applyFiltersRe compile spec rs =
      Except.ok (seqFilter (predsC spec mc ms) rs) := by
    rw [applyFiltersRe,
      maskStep_eq compile spec.country (fun r => r.country) mc _ hc]
    dsimp only
    rw [maskStep_eq compile spec.sponsor (fun r => r.sponsor) ms _ hsp]
    rfl
  refine ⟨?_, key ps hperm, List.filter_sublist _⟩
  rw [hmain, key _ (List.Perm.refl _)]

/-- A concrete filter specification used by the C5 witness. -/
def spec0 : FilterSpec := ⟨"PHASE2", "states", "", "All", 0, 1000⟩

/-- The matcher `re0` compiles the (metacharacter-free) pattern "states"
to: case-insensitive substring search. -/
def mStates : String → Bool := fun s =>
  strContains (lowerStr s) (lowerStr "states")

/-- C5 witness: the amended theorem applied to the concrete compiler,
spec, record list and a reversed application order, with the compilation
hypotheses discharged. -/
theorem filters_pure_conjunction_witness :
    applyFiltersRe re0 spec0 rs0 =
        Except.ok
          (rs0.filter fun r => (predsC spec0 mStates mStates).all fun p => p r)
    ∧ seqFilter ((predsC spec0 mStates mStates).reverse) rs0 =
        rs0.filter (fun r => (predsC spec0 mStates mStates).all fun p => p r)
    ∧ (rs0.filter fun r =>
        (predsC spec0 mStates mStates).all fun p => p r).Sublist rs0 :=
  filters_pure_conjunction re0 spec0 rs0 mStates mStates
    ((predsC spec0 mStates mStates).reverse)
    (Or.inr rfl) (Or.inl rfl)
    ((predsC spec0 mStates mStates).reverse_perm)

/-- C6: whenever a record's enrollment is null it is excluded from the
filtered result (the enrollment-range mask is always applied in `app.py`,
and null fails the numeric comparison). -/
theorem null_enrollment_excluded (spec : FilterSpec) (rs : List DashRecord)
    (r : DashRecord) (h : r.enrollment = none) :
    r ∉ applyFilters spec rs := by
  intro hmem
  have hp := (List.mem_filter.mp hmem).2
  rw [enrollPred, h] at hp
  exact absurd hp (by simp)

/-- A filter specification with enrollment bounds [0, 5000], used by the C6
witness. -/
def spec6 : FilterSpec := ⟨"All", "", "", "All", 0, 5000⟩

/-- A record with null enrollment, used by the C6 witness. -/
def recNull : DashRecord := ⟨some "NCT3", "None", none, none, none, none⟩

/-- C6 witness: a record with null enrollment is excluded under bounds
[0, 5000]. -/
theorem null_enrollment_excluded_witness :
    recNull ∉ applyFilters spec6 [recNull] :=
  null_enrollment_excluded spec6 [recNull] recNull rfl

/-! ## C7 — fetch degradation to an empty result -/

/-- C7: a non-200 status or a payload without the `studies` key yields an
empty frame in both variants of `fetch_trials` (totality of the embedding:
no exception path exists). -/
theorem fetch_degrades_to_empty (resp : RegistryResponse)
    (h : resp.statusCode ≠ 200 ∨ resp.studies = none) :
    fetch_trials resp = [] ∧ fetch_trials_dash resp = [] := by
  cases h with
  | inl h => simp [fetch_trials, fetch_trials_dash, h]
  | inr h =>
    by_cases hs : resp.statusCode = 200
    · simp [fetch_trials, fetch_trials_dash, hs, h]
    · simp [fetch_trials, fetch_trials_dash, hs]

/-- C7 witness: a 500 response produces empty frames in both variants. -/
theorem fetch_degrades_to_empty_witness :
    fetch_trials ⟨500, some []⟩ = [] ∧ fetch_trials_dash ⟨500, some []⟩ = [] :=
  fetch_degrades_to_empty ⟨500, some []⟩ (Or.inl (by decide))

/-! ## C8 — empty search term handling -/

/-- C8 counterexample: in `app.py`, clicking Generate Dashboard with an
empty disease string still performs the fetch (the claim states no network
request is attempted on an empty term). -/
theorem empty_term_still_fetches : app_main true "" ⟨500, none⟩ ≠ none := by
  decide

/-- C8 (amended): the `newapp.py` variant blocks an empty search term with
a prompt and stops before any fetch, and fetches for every non-empty term;
the `app.py` variant fetches on every button click regardless of whether
the term is empty. -/
theorem empty_term_guard (resp : RegistryResponse) :
    newapp_main "" resp = SearchOutcome.prompt
    ∧ (∀ d : String, d ≠ "" →
        newapp_main d resp = SearchOutcome.results (fetch_trials resp))
    ∧ ∀ d : String, app_main true d resp = some (fetch_trials_dash resp) := by
  refine ⟨rfl, fun d hd => ?_, fun d => rfl⟩
  simp [newapp_main, hd]

/-- C8 witness: the amended statement at a concrete response, with the
non-empty-term hypothesis discharged at a concrete term. -/
theorem empty_term_guard_witness :
    newapp_main "" ⟨500, none⟩ = SearchOutcome.prompt
    ∧ newapp_main "diabetes" ⟨500, none⟩ =
        SearchOutcome.results (fetch_trials ⟨500, none⟩)
    ∧ app_main true "" ⟨500, none⟩ = some (fetch_trials_dash ⟨500, none⟩) :=
  ⟨(empty_term_guard ⟨500, none⟩).1,
   (empty_term_guard ⟨500, none⟩).2.1 "diabetes" (by decide),
   (empty_term_guard ⟨500, none⟩).2.2 ""⟩
